import Mathlib

/-!
Shallow embedding of `copycheck.py`, a module that finds verbatim sequences of
words shared by a reference text and a sample text and marks them with ANSI
escape codes.

Modelling conventions: a text is a `List Char`; a token is a `List Char`;
a NumPy boolean array is a `List Bool`; a NumPy integer array is a `List Int`;
a Python dict mapping words to integers is an association list
`List (List Char × Nat)`.  Fallible NumPy operations (broadcasting of
mismatched shapes) return `Option`.  Unicode classes of Python regexes are
modelled over their ASCII content plus the explicitly listed dash characters.
-/

namespace Copycheck

/-- Characters of the tokenizer split class `[\s—–-]` used by `to_list`
(copycheck.py line 66): whitespace, em dash, en dash, hyphen. -/
def isSepChar (c : Char) : Bool :=
  c == ' ' || c == '\t' || c == '\n' || c == '\r' || c == '\x0b' || c == '\x0c' ||
    c == '—' || c == '–' || c == '-'

/-- Characters of the Python regex class `\s` (whitespace), used through `\S`
in the quotation pattern of `match_quotes` (copycheck.py line 247). -/
def isPySpace (c : Char) : Bool :=
  c == ' ' || c == '\t' || c == '\n' || c == '\r' || c == '\x0b' || c == '\x0c'

/-- A Python word character (regex `\w`): alphanumeric or underscore. -/
def isWordChar (c : Char) : Bool :=
  c.isAlphanum || c == '_'

/-- One step of the run grouping: put `c` in front of the first run when it
is of the same separator class, otherwise open a new run. -/
def splitRunsStep (c : Char) (acc : List (List Char)) : List (List Char) :=
  match acc with
  | [] => [[c]]
  | run :: rest =>
    match run with
    | [] => [c] :: rest
    | d :: _ =>
      if isSepChar c == isSepChar d then (c :: run) :: rest
      else [c] :: run :: rest

/-- `re.split('([\s—–-]+)', text)` with empty strings filtered out
(copycheck.py line 66): the text cut into maximal runs of separator
characters and maximal runs of non-separator characters, in order. -/
def splitRuns (l : List Char) : List (List Char) :=
  l.foldr splitRunsStep []

/-- `re.search('\w', token)` as a Bool (copycheck.py line 80). -/
def hasWordChar (t : List Char) : Bool :=
  t.any isWordChar

/-- The pairing loop of `to_list` (copycheck.py lines 76-83): consecutive
split runs are concatenated two at a time; a dangling last run is kept
standalone when it contains a word character and is otherwise merged into
the previous pair. -/
def pairLoop : List (List Char) → List (List Char)
  | [] => []
  | [t] => [t]
  | [a, b] => [a ++ b]
  | [a, b, c] => if hasWordChar c then [a ++ b, c] else [a ++ b ++ c]
  | a :: b :: c :: d :: rest => (a ++ b) :: pairLoop (c :: d :: rest)

/-- `to_list` (copycheck.py lines 53-84): split a text on whitespace/dash
runs, then pair each word with its adjacent formatting run. -/
def to_list (text : List Char) : List (List Char) :=
  let tokens := splitRuns text
  if tokens.length = 1 then tokens
  else if 1 < tokens.length then pairLoop tokens
  else []

/-- `process_text` (copycheck.py lines 38-51): normalize curly apostrophes
to `'` and curly quotation marks to `"`. -/
def process_text (text : List Char) : List Char :=
  (text.map (fun c => if c == '’' || c == '‘' then '\'' else c)).map
    (fun c => if c == '“' || c == '”' then '"' else c)

/-- The normalized comparison form of a token,
`re.sub(r"[^\w']", '', token.lower())` (copycheck.py lines 211 and 217):
lowercase, then keep only word characters and apostrophes. -/
def comparisonKey (token : List Char) : List Char :=
  (token.map Char.toLower).filter (fun c => isWordChar c || c == '\'')

/-- Lookup in the association-list model of the Python dict `word2num`. -/
def dictLookup : List (List Char × Nat) → List Char → Option Nat
  | [], _ => none
  | (k, v) :: d, w => if k = w then some v else dictLookup d w

/-- Index of the first occurrence of a key in a list of keys. -/
def firstOccIdx : List (List Char) → List Char → Option Nat
  | [], _ => none
  | k :: ks, w => if k = w then some 0 else (firstOccIdx ks w).map (· + 1)

/-- The reference loop of `match_verbatim` (copycheck.py lines 209-213):
walk the reference keys with their indices, give each unseen key the current
index via `word2num[word] = word2num.get(word, index)`, and record the id of
every token.  Returns the id list and the final dict. -/
def internAux : Nat → List (List Char) → List (List Char × Nat) →
    List Int × List (List Char × Nat)
  | _, [], d => ([], d)
  | i, w :: ws, d =>
    let v : Nat := (dictLookup d w).getD i
    let d2 := if (dictLookup d w).isSome then d else (w, v) :: d
    let r := internAux (i + 1) ws d2
    (Int.ofNat v :: r.1, r.2)

/-- The vocabulary built from the reference tokens (copycheck.py
lines 206-213) together with the reference id sequence. -/
def internReference (reference : List (List Char)) :
    List Int × List (List Char × Nat) :=
  internAux 0 (reference.map comparisonKey) []

/-- The two integer id sequences produced by `match_verbatim`
(copycheck.py lines 206-221): reference tokens are interned in
first-occurrence order, sample tokens resolve through the final dict or to
the sentinel `-1` (the `KeyError` branch, line 221). -/
def match_verbatim_ids (reference sample : List (List Char)) :
    List Int × List Int :=
  let interned := internReference reference
  (interned.1,
   (sample.map comparisonKey).map fun w =>
     match dictLookup interned.2 w with
     | some n => Int.ofNat n
     | none => -1)

/-- One entry of the `matches` matrix of `search_arrays` (copycheck.py
line 181): the length-`frame_size` windows of the sample at `i` and of the
reference at `j` agree elementwise. -/
def frameHit (reference_list sample_list : List Int) (frame_size i j : Nat) : Bool :=
  decide ((sample_list.drop i).take frame_size = (reference_list.drop j).take frame_size)

/-- `matches.any(0)` (copycheck.py line 185): reference window `j` is hit by
some sample window. -/
def refWindowHit (reference_list sample_list : List Int) (frame_size j : Nat) : Bool :=
  (List.range (sample_list.length + 1 - frame_size)).any fun i =>
    frameHit reference_list sample_list frame_size i j

/-- `matches.any(1)` (copycheck.py line 186): sample window `i` hits some
reference window. -/
def samWindowHit (reference_list sample_list : List Int) (frame_size i : Nat) : Bool :=
  (List.range (reference_list.length + 1 - frame_size)).any fun j =>
    frameHit reference_list sample_list frame_size i j

/-- `np.convolve(hits, np.ones(frame_size)) > 0` (copycheck.py
lines 185-186): token `p` is true when some hit window `w` covers it,
i.e. `w ≤ p < w + frame_size`. -/
def coverMask (hits : Nat → Bool) (numFrames frame_size len : Nat) : List Bool :=
  (List.range len).map fun p =>
    (List.range numFrames).any fun w =>
      decide (w ≤ p) && decide (p < w + frame_size) && hits w

/-- `search_arrays` (copycheck.py lines 145-189): compare all sliding
windows of the two id sequences; when some pair of windows agrees, expand
window hits to per-token masks, otherwise return two all-false masks. -/
def search_arrays (reference_list sample_list : List Int) (frame_size_int : Nat) :
    List Bool × List Bool :=
  if (List.range (reference_list.length + 1 - frame_size_int)).any
      (fun j => refWindowHit reference_list sample_list frame_size_int j) then
    (coverMask (refWindowHit reference_list sample_list frame_size_int)
       (reference_list.length + 1 - frame_size_int) frame_size_int reference_list.length,
     coverMask (samWindowHit reference_list sample_list frame_size_int)
       (sample_list.length + 1 - frame_size_int) frame_size_int sample_list.length)
  else
    (List.replicate reference_list.length false, List.replicate sample_list.length false)

/-- `match_verbatim` (copycheck.py lines 192-226): intern both token lists
and run the frame matcher. -/
def match_verbatim (reference sample : List (List Char)) (frame_size : Nat) :
    List Bool × List Bool :=
  let ids := match_verbatim_ids reference sample
  search_arrays ids.1 ids.2 frame_size

/-- `get_color` (copycheck.py lines 87-116): name of a color to its ANSI
start and stop codes, defaulting to white. -/
def get_color (color : List Char) : List Char × List Char :=
  let start :=
    if color = "red".data then "\x1b[41;1m".data
    else if color = "green".data then "\x1b[42;1m".data
    else if color = "yellow".data then "\x1b[43;1m".data
    else if color = "blue".data then "\x1b[44;1m".data
    else if color = "magenta".data then "\x1b[45;1m".data
    else if color = "cyan".data then "\x1b[46;1m".data
    else "\x1b[47;1m".data
  (start, "\x1b[0m".data)

/-- The padded mask `np.pad(mask, (1,), 'constant', constant_values=False)`
(copycheck.py line 131). -/
def paddedMask (mask : List Bool) : List Bool :=
  false :: (mask ++ [false])

/-- `starts` (copycheck.py line 132): indices where the padded mask steps
from false to true. -/
def highlight_starts (mask : List Bool) : List Nat :=
  (List.range (mask.length + 1)).filter fun idx =>
    !((paddedMask mask).getD idx false) && (paddedMask mask).getD (idx + 1) false

/-- `stops` (copycheck.py line 133): indices (shifted down by one) where the
padded mask steps from true to false. -/
def highlight_stops (mask : List Bool) : List Nat :=
  ((List.range (mask.length + 1)).filter fun idx =>
    (paddedMask mask).getD idx false && !((paddedMask mask).getD (idx + 1) false)).map
    (fun idx => idx - 1)

/-- `highlight_text` (copycheck.py lines 119-142): prepend the color start
code to every token listed in `starts` and append the stop code to every
token listed in `stops`. -/
def highlight_text (mask : List Bool) (text : List (List Char)) (color : List Char) :
    List (List Char) :=
  let sc := get_color color
  (List.range text.length).map fun idx =>
    let t0 := text.getD idx []
    let t1 := if idx ∈ highlight_starts mask then sc.1 ++ t0 else t0
    if idx ∈ highlight_stops mask then t1 ++ sc.2 else t1

/-- `np.logical_and` on two one-dimensional boolean arrays, with NumPy
broadcasting: equal lengths combine elementwise, a length-one operand is
broadcast, and any other shape pair raises (modelled as `none`). -/
def np_logical_and (a b : List Bool) : Option (List Bool) :=
  if a.length = b.length then some (a.zipWith (fun x y => x && y) b)
  else if a.length = 1 then some (b.map (fun y => a.headD false && y))
  else if b.length = 1 then some (a.map (fun x => x && b.headD false))
  else none

/-- `np.logical_not` on a one-dimensional boolean array. -/
def np_logical_not (a : List Bool) : List Bool :=
  a.map (fun x => !x)

/-- `layer_masks` (copycheck.py lines 271-286): returns
`(m AND NOT q, m AND q)`. -/
def layer_masks (m q : List Bool) : Option (List Bool) × Option (List Bool) :=
  (np_logical_and m (np_logical_not q), np_logical_and m q)

/-- The replacement string `'_quoted_ ' * len(to_list(m.group(1)))` used by
`match_quotes` (copycheck.py line 253). -/
def quotedReplacement (g : List Char) : List Char :=
  (List.replicate (to_list g).length ("_quoted_ ".data)).flatten

/-- Split a text at its first double-quote character: `some (a, b)` with
`text = a ++ '"' :: b` and no quote in `a`, or `none` when there is no
quote. -/
def splitAtFirstQuote : List Char → Option (List Char × List Char)
  | [] => none
  | c :: cs =>
    if c = '"' then some ([], cs)
    else (splitAtFirstQuote cs).map (fun p => (c :: p.1, p.2))

/-- Remove the maximal non-whitespace suffix of a text (the lazy `\S*?` of
the quotation pattern reaches back to the start of the chunk that holds the
opening quote). -/
def dropTrailingNonSpace (a : List Char) : List Char :=
  (a.reverse.dropWhile (fun c => !(isPySpace c))).reverse

/-- `re.sub('\S*?\"([^\"]*)\"\S*', repl, s)` (copycheck.py lines 247-253),
with fuel: repeatedly find the leftmost match — from the start of the
non-whitespace chunk holding the next quote, through the quoted content, to
the end of the chunk holding the closing quote — and replace it with one
`'_quoted_ '` per token of the quoted content. -/
def subQuotesAux : Nat → List Char → List Char
  | 0, s => s
  | fuel + 1, s =>
    match splitAtFirstQuote s with
    | none => s
    | some (a, b) =>
      match splitAtFirstQuote b with
      | none => s
      | some (inner, b2) =>
        dropTrailingNonSpace a ++ quotedReplacement inner ++
          subQuotesAux fuel (b2.dropWhile (fun c => !(isPySpace c)))

/-- The quotation substitution of `match_quotes` with enough fuel. -/
def subQuotes (s : List Char) : List Char :=
  subQuotesAux s.length s

/-- Naive substring test, modelling `re.compile('_quoted_').search`. -/
def leadsWith : List Char → List Char → Bool
  | [], _ => true
  | _ :: _, [] => false
  | a :: as, b :: bs => a == b && leadsWith as bs

/-- Whether `pat` occurs as a contiguous substring of `s`. -/
def hasSubstr (pat : List Char) : List Char → Bool
  | [] => leadsWith pat []
  | c :: rest => leadsWith pat (c :: rest) || hasSubstr pat rest

/-- `match_quotes` (copycheck.py lines 229-268): with an even number of
double quotes, replace quoted regions by `_quoted_` placeholders, retokenize
and mark the tokens holding a placeholder; with an odd number, return an
all-false mask over the sample's tokens. -/
def match_quotes (sample : List Char) : List Bool :=
  if sample.count '"' % 2 == 0 then
    (to_list (subQuotes sample)).map (fun tok => hasSubstr ("_quoted_".data) tok)
  else
    List.replicate (to_list sample).length false

/-- Result of `format_text`: the `(None, None)` fallback, a pair of
annotated texts, or the NumPy broadcast `ValueError` noted at copycheck.py
line 285. -/
inductive FormatResult where
  | absent : FormatResult
  | ok : List Char → List Char → FormatResult
  | broadcastError : FormatResult
deriving DecidableEq

/-- `format_text` (copycheck.py lines 289-331): normalize and tokenize both
texts, run the frame matcher, and if any match exists, highlight the
reference, layer the sample's match mask with its quote mask and highlight
the sample twice; otherwise return the absent result.  The source tests
`r_match_mask.any()` twice in its guard (line 314). -/
def format_text (r_in s_in : List Char) (frame : Nat) (get_quotes : Bool)
    (reference_color sample_color quote_color : List Char) : FormatResult :=
  let reference := process_text r_in
  let sample := process_text s_in
  let r_tokens := to_list reference
  let s_tokens := to_list sample
  let masks := match_verbatim r_tokens s_tokens frame
  if masks.1.any id && masks.1.any id then
    let r_out := highlight_text masks.1 r_tokens reference_color
    let quote_mask :=
      if get_quotes then match_quotes sample
      else List.replicate masks.2.length false
    let layered := layer_masks masks.2 quote_mask
    match layered.1, layered.2 with
    | some unquoted, some quoted =>
      let s_out := highlight_text quoted (highlight_text unquoted s_tokens sample_color)
        quote_color
      FormatResult.ok r_out.flatten s_out.flatten
    | _, _ => FormatResult.broadcastError
  else
    FormatResult.absent

/-- A matching run of length `k` between the comparison-key sequences of two
token lists: some sample window and some reference window of length `k`
carry equal keys elementwise. -/
def existsCommonFrame (rTokens sTokens : List (List Char)) (k : Nat) : Prop :=
  ∃ i j, i + k ≤ sTokens.length ∧ j + k ≤ rTokens.length ∧
    ((sTokens.map comparisonKey).drop i).take k =
      ((rTokens.map comparisonKey).drop j).take k

/-! ## Generic list access lemmas -/

lemma getD_map_range {α : Type} (n : Nat) (f : Nat → α) (p : Nat) (d : α) :
    ((List.range n).map f).getD p d = if p < n then f p else d := by
  by_cases h : p < n
  · rw [List.getD_eq_getElem _ _ (by simpa using h), List.getElem_map, List.getElem_range,
      if_pos h]
  · rw [List.getD_eq_default _ _ (by simpa using Nat.le_of_not_lt h), if_neg h]

lemma getD_replicate_self {α : Type} (n p : Nat) (x : α) :
    (List.replicate n x).getD p x = x := by
  by_cases h : p < n
  · rw [List.getD_eq_getElem _ _ (by simpa using h), List.getElem_replicate]
  · rw [List.getD_eq_default _ _ (by simpa using Nat.le_of_not_lt h)]

lemma getD_true_lt (l : List Bool) (p : Nat) (h : l.getD p false = true) : p < l.length := by
  by_contra hc
  rw [List.getD_eq_default _ _ (Nat.le_of_not_lt hc)] at h
  exact Bool.false_ne_true h

lemma getD_window {α : Type} (l : List α) (d : α) (i k t : Nat) (ht : t < k) :
    ((l.drop i).take k).getD t d = l.getD (i + t) d := by
  rw [List.getD_eq_getElem?_getD, List.getD_eq_getElem?_getD, List.getElem?_take,
    if_pos ht, List.getElem?_drop]

lemma window_eq_iff {α : Type} (X Y : List α) (d : α) (i j k : Nat)
    (hi : i + k ≤ X.length) (hj : j + k ≤ Y.length) :
    (X.drop i).take k = (Y.drop j).take k ↔
      ∀ t, t < k → X.getD (i + t) d = Y.getD (j + t) d := by
  constructor
  · intro h t ht
    rw [← getD_window X d i k t ht, ← getD_window Y d j k t ht, h]
  · intro h
    apply List.ext_getElem
    · simp only [List.length_take, List.length_drop]
      omega
    intro t h1 h2
    have ht : t < k := by
      simp only [List.length_take, List.length_drop] at h1
      omega
    have hx : i + t < X.length := by omega
    have hy : j + t < Y.length := by omega
    have hg := h t ht
    rw [List.getD_eq_getElem _ _ hx, List.getD_eq_getElem _ _ hy] at hg
    simpa [List.getElem_take, List.getElem_drop] using hg

lemma count_true_le_of_getD : ∀ (l1 l2 : List Bool), l1.length = l2.length →
    (∀ p, l1.getD p false = true → l2.getD p false = true) →
    l1.count true ≤ l2.count true := by
  intro l1
  induction l1 with
  | nil => intro l2 _ _; simp
  | cons b1 t1 ih =>
    intro l2 hlen h
    match l2 with
    | [] => simp at hlen
    | b2 :: t2 =>
      have hh := h 0
      have ht := fun p => h (p + 1)
      simp only [List.getD_cons_zero] at hh
      simp only [List.getD_cons_succ] at ht
      have hrec := ih t2 (by simpa using hlen) ht
      rw [List.count_cons, List.count_cons]
      cases b1
      · cases b2 <;> simp <;> omega
      · rw [hh rfl]
        simp
        omega

/-! ## Frame matcher characterization -/

lemma refWindowHit_iff (a b : List Int) (k j : Nat) :
    refWindowHit a b k j = true ↔
      ∃ i, i + k ≤ b.length ∧ (b.drop i).take k = (a.drop j).take k := by
  unfold refWindowHit frameHit
  rw [List.any_eq_true]
  constructor
  · rintro ⟨i, hi, hdec⟩
    rw [List.mem_range] at hi
    exact ⟨i, by omega, of_decide_eq_true hdec⟩
  · rintro ⟨i, hi, heq⟩
    exact ⟨i, List.mem_range.mpr (by omega), decide_eq_true heq⟩

lemma samWindowHit_iff (a b : List Int) (k i : Nat) :
    samWindowHit a b k i = true ↔
      ∃ j, j + k ≤ a.length ∧ (b.drop i).take k = (a.drop j).take k := by
  unfold samWindowHit frameHit
  rw [List.any_eq_true]
  constructor
  · rintro ⟨j, hj, hdec⟩
    rw [List.mem_range] at hj
    exact ⟨j, by omega, of_decide_eq_true hdec⟩
  · rintro ⟨j, hj, heq⟩
    exact ⟨j, List.mem_range.mpr (by omega), decide_eq_true heq⟩

lemma coverMask_getD (hits : Nat → Bool) (n k len p : Nat) :
    (coverMask hits n k len).getD p false = true ↔
      p < len ∧ ∃ w, w < n ∧ w ≤ p ∧ p < w + k ∧ hits w = true := by
  unfold coverMask
  rw [getD_map_range]
  by_cases hp : p < len
  · rw [if_pos hp, List.any_eq_true]
    constructor
    · rintro ⟨w, hw, hcond⟩
      rw [List.mem_range] at hw
      rw [Bool.and_eq_true, Bool.and_eq_true] at hcond
      obtain ⟨⟨hc1, hc2⟩, hc3⟩ := hcond
      exact ⟨hp, w, hw, of_decide_eq_true hc1, of_decide_eq_true hc2, hc3⟩
    · rintro ⟨-, w, hw, h1, h2, h3⟩
      refine ⟨w, List.mem_range.mpr hw, ?_⟩
      rw [Bool.and_eq_true, Bool.and_eq_true]
      exact ⟨⟨decide_eq_true h1, decide_eq_true h2⟩, h3⟩
  · rw [if_neg hp]
    simp [hp]

lemma search_arrays_fst_getD (a b : List Int) (k p : Nat) :
    (search_arrays a b k).1.getD p false = true ↔
      ∃ i j, j ≤ p ∧ p < j + k ∧ i + k ≤ b.length ∧ j + k ≤ a.length ∧
        (b.drop i).take k = (a.drop j).take k := by
  unfold search_arrays
  by_cases hc : (List.range (a.length + 1 - k)).any (fun j => refWindowHit a b k j) = true
  · rw [if_pos hc]
    dsimp only
    rw [coverMask_getD]
    constructor
    · rintro ⟨hp, w, hw, h1, h2, h3⟩
      rw [refWindowHit_iff] at h3
      obtain ⟨i, hi, heq⟩ := h3
      exact ⟨i, w, h1, h2, hi, by omega, heq⟩
    · rintro ⟨i, j, h1, h2, h3, h4, heq⟩
      exact ⟨by omega, j, by omega, h1, h2, (refWindowHit_iff a b k j).mpr ⟨i, h3, heq⟩⟩
  · rw [if_neg hc]
    dsimp only
    rw [getD_replicate_self]
    constructor
    · intro h
      exact absurd h (by simp)
    · rintro ⟨i, j, h1, h2, h3, h4, heq⟩
      exact absurd (List.any_eq_true.mpr
        ⟨j, List.mem_range.mpr (by omega), (refWindowHit_iff a b k j).mpr ⟨i, h3, heq⟩⟩) hc

lemma search_arrays_snd_getD (a b : List Int) (k p : Nat) :
    (search_arrays a b k).2.getD p false = true ↔
      ∃ i j, i ≤ p ∧ p < i + k ∧ i + k ≤ b.length ∧ j + k ≤ a.length ∧
        (b.drop i).take k = (a.drop j).take k := by
  unfold search_arrays
  by_cases hc : (List.range (a.length + 1 - k)).any (fun j => refWindowHit a b k j) = true
  · rw [if_pos hc]
    dsimp only
    rw [coverMask_getD]
    constructor
    · rintro ⟨hp, w, hw, h1, h2, h3⟩
      rw [samWindowHit_iff] at h3
      obtain ⟨j, hj, heq⟩ := h3
      exact ⟨w, j, h1, h2, by omega, hj, heq⟩
    · rintro ⟨i, j, h1, h2, h3, h4, heq⟩
      exact ⟨by omega, i, by omega, h1, h2, (samWindowHit_iff a b k i).mpr ⟨j, h4, heq⟩⟩
  · rw [if_neg hc]
    dsimp only
    rw [getD_replicate_self]
    constructor
    · intro h
      exact absurd h (by simp)
    · rintro ⟨i, j, h1, h2, h3, h4, heq⟩
      exact absurd (List.any_eq_true.mpr
        ⟨j, List.mem_range.mpr (by omega), (refWindowHit_iff a b k j).mpr ⟨i, h3, heq⟩⟩) hc

lemma search_arrays_fst_length (a b : List Int) (k : Nat) :
    (search_arrays a b k).1.length = a.length := by
  unfold search_arrays
  split <;> simp [coverMask]

lemma search_arrays_snd_length (a b : List Int) (k : Nat) :
    (search_arrays a b k).2.length = b.length := by
  unfold search_arrays
  split <;> simp [coverMask]

/-! ## Shrinking a matching window -/

lemma window_shrink {α : Type} (X Y : List α) (i j k : Nat)
    (h : (X.drop i).take (k + 1) = (Y.drop j).take (k + 1)) :
    (X.drop i).take k = (Y.drop j).take k ∧
      (X.drop (i + 1)).take k = (Y.drop (j + 1)).take k := by
  constructor
  · have h1 := congrArg (List.take k) h
    rw [List.take_take, List.take_take, inf_eq_left.mpr (Nat.le_succ k)] at h1
    exact h1
  · have h2 := congrArg (List.drop 1) h
    rw [List.drop_take, List.drop_take, List.drop_drop, List.drop_drop,
      Nat.add_sub_cancel] at h2
    exact h2

lemma search_fst_mono (a b : List Int) (k p : Nat) (hk : 1 ≤ k)
    (h : (search_arrays a b (k + 1)).1.getD p false = true) :
    (search_arrays a b k).1.getD p false = true := by
  rw [search_arrays_fst_getD] at h ⊢
  obtain ⟨i, j, h1, h2, h3, h4, heq⟩ := h
  obtain ⟨heq1, heq2⟩ := window_shrink b a i j k heq
  by_cases hp : p < j + k
  · exact ⟨i, j, h1, hp, by omega, by omega, heq1⟩
  · exact ⟨i + 1, j + 1, by omega, by omega, by omega, by omega, heq2⟩

lemma search_snd_mono (a b : List Int) (k p : Nat) (hk : 1 ≤ k)
    (h : (search_arrays a b (k + 1)).2.getD p false = true) :
    (search_arrays a b k).2.getD p false = true := by
  rw [search_arrays_snd_getD] at h ⊢
  obtain ⟨i, j, h1, h2, h3, h4, heq⟩ := h
  obtain ⟨heq1, heq2⟩ := window_shrink b a i j k heq
  by_cases hp : p < i + k
  · exact ⟨i, j, h1, hp, by omega, by omega, heq1⟩
  · exact ⟨i + 1, j + 1, by omega, by omega, by omega, by omega, heq2⟩

/-- Claim C3: for integer id sequences and a frame size of at least 1 that
exceeds the length of the reference sequence or of the sample sequence,
`search_arrays` returns two all-false masks whose lengths are the reference
length and the sample length; the function is total, so no error is raised. -/
theorem C3_search_short_input (reference_list sample_list : List Int) (frame_size : Nat)
    (hk : 1 ≤ frame_size)
    (hshort : reference_list.length < frame_size ∨ sample_list.length < frame_size) :
    search_arrays reference_list sample_list frame_size =
      (List.replicate reference_list.length false,
       List.replicate sample_list.length false) := by
  unfold search_arrays
  rw [if_neg]
  intro hany
  rw [List.any_eq_true] at hany
  obtain ⟨j, hj, hhit⟩ := hany
  rw [List.mem_range] at hj
  rw [refWindowHit_iff] at hhit
  obtain ⟨i, hi, -⟩ := hhit
  cases hshort <;> omega

/-- Witness for C3 at a concrete input. -/
theorem C3_search_short_input_witness :
    1 ≤ 3 ∧ (([0, 1] : List Int).length < 3 ∨ ([2] : List Int).length < 3) ∧
      search_arrays [0, 1] [2] 3 =
        (List.replicate ([0, 1] : List Int).length false,
         List.replicate ([2] : List Int).length false) :=
  ⟨by decide, by decide, C3_search_short_input [0, 1] [2] 3 (by decide) (by decide)⟩

/-- Claim C6: raising the frame size from `k` to `k + 1` never adds a true
entry to either mask of `search_arrays`: every position true at `k + 1` is
true at `k`, and the counts of true entries are monotonically non-increasing. -/
theorem C6_frame_monotone (reference_list sample_list : List Int) (k : Nat) (hk : 1 ≤ k) :
    (∀ p, (search_arrays reference_list sample_list (k + 1)).1.getD p false = true →
        (search_arrays reference_list sample_list k).1.getD p false = true) ∧
    (∀ p, (search_arrays reference_list sample_list (k + 1)).2.getD p false = true →
        (search_arrays reference_list sample_list k).2.getD p false = true) ∧
    (search_arrays reference_list sample_list (k + 1)).1.count true ≤
      (search_arrays reference_list sample_list k).1.count true ∧
    (search_arrays reference_list sample_list (k + 1)).2.count true ≤
      (search_arrays reference_list sample_list k).2.count true := by
  refine ⟨fun p => search_fst_mono _ _ k p hk, fun p => search_snd_mono _ _ k p hk, ?_, ?_⟩
  · exact count_true_le_of_getD _ _
      (by rw [search_arrays_fst_length, search_arrays_fst_length])
      (fun p => search_fst_mono _ _ k p hk)
  · exact count_true_le_of_getD _ _
      (by rw [search_arrays_snd_length, search_arrays_snd_length])
      (fun p => search_snd_mono _ _ k p hk)

/-- Witness for C6 at a concrete input. -/
theorem C6_frame_monotone_witness :
    1 ≤ 1 ∧
    ((∀ p, (search_arrays [5, 6] [5, 6] 2).1.getD p false = true →
        (search_arrays [5, 6] [5, 6] 1).1.getD p false = true) ∧
     (∀ p, (search_arrays [5, 6] [5, 6] 2).2.getD p false = true →
        (search_arrays [5, 6] [5, 6] 1).2.getD p false = true) ∧
     (search_arrays [5, 6] [5, 6] 2).1.count true ≤
       (search_arrays [5, 6] [5, 6] 1).1.count true ∧
     (search_arrays [5, 6] [5, 6] 2).2.count true ≤
       (search_arrays [5, 6] [5, 6] 1).2.count true) :=
  ⟨by decide, C6_frame_monotone [5, 6] [5, 6] 1 (by decide)⟩

/-! ## Mask compositor -/

lemma zip_partition : ∀ (m q : List Bool), m.length = q.length →
    (m.zipWith (fun a b => a && b) q).zipWith (fun a b => a && b)
        (m.zipWith (fun a b => a && !b) q) = List.replicate m.length false ∧
    (m.zipWith (fun a b => a && b) q).zipWith (fun a b => a || b)
        (m.zipWith (fun a b => a && !b) q) = m := by
  intro m
  induction m with
  | nil => intro q h; simp
  | cons a t ih =>
    intro q h
    match q with
    | [] => simp at h
    | b :: qt =>
      obtain ⟨ih1, ih2⟩ := ih qt (by simpa using h)
      constructor
      · simp only [List.zipWith_cons_cons, List.replicate_succ, ih1]
        congr 1
        cases a <;> cases b <;> rfl
      · simp only [List.zipWith_cons_cons, ih2]
        congr 1
        cases a <;> cases b <;> rfl

/-- Claim C5: on equal-length match mask `m` and quote mask `q`,
`layer_masks` returns `(m AND NOT q, m AND q)`, the two outputs are
disjoint, and their union is `m` (they partition the match mask). -/
theorem C5_layer_partition (m q : List Bool) (hlen : m.length = q.length) :
    layer_masks m q =
      (some (m.zipWith (fun a b => a && !b) q), some (m.zipWith (fun a b => a && b) q)) ∧
    (m.zipWith (fun a b => a && b) q).zipWith (fun a b => a && b)
        (m.zipWith (fun a b => a && !b) q) = List.replicate m.length false ∧
    (m.zipWith (fun a b => a && b) q).zipWith (fun a b => a || b)
        (m.zipWith (fun a b => a && !b) q) = m := by
  refine ⟨?_, zip_partition m q hlen⟩
  unfold layer_masks np_logical_and np_logical_not
  rw [if_pos (by simpa using hlen), if_pos hlen, List.zipWith_map_right]

/-- Witness for C5 at a concrete input. -/
theorem C5_layer_partition_witness :
    ([true, true, false] : List Bool).length = ([false, true, false] : List Bool).length ∧
    (layer_masks [true, true, false] [false, true, false] =
      (some (List.zipWith (fun a b => a && !b) [true, true, false] [false, true, false]),
       some (List.zipWith (fun a b => a && b) [true, true, false] [false, true, false])) ∧
     (List.zipWith (fun a b => a && b) [true, true, false] [false, true, false]).zipWith
        (fun a b => a && b)
        (List.zipWith (fun a b => a && !b) [true, true, false] [false, true, false]) =
       List.replicate ([true, true, false] : List Bool).length false ∧
     (List.zipWith (fun a b => a && b) [true, true, false] [false, true, false]).zipWith
        (fun a b => a || b)
        (List.zipWith (fun a b => a && !b) [true, true, false] [false, true, false]) =
       [true, true, false]) :=
  ⟨by decide, C5_layer_partition [true, true, false] [false, true, false] (by decide)⟩

/-! ## Tokenizer reconstruction -/

lemma flatten_splitRunsStep (c : Char) (acc : List (List Char)) :
    (splitRunsStep c acc).flatten = c :: acc.flatten := by
  rcases acc with - | ⟨run, rest⟩
  · rfl
  · rcases run with - | ⟨d, ds⟩
    · simp [splitRunsStep]
    · unfold splitRunsStep
      by_cases h : isSepChar c == isSepChar d <;> simp [h]

lemma flatten_splitRuns (l : List Char) : (splitRuns l).flatten = l := by
  induction l with
  | nil => rfl
  | cons c cs ih =>
    have hstep : splitRuns (c :: cs) = splitRunsStep c (splitRuns cs) := rfl
    rw [hstep, flatten_splitRunsStep, ih]

lemma flatten_pairLoop : ∀ (ts : List (List Char)), (pairLoop ts).flatten = ts.flatten
  | [] => rfl
  | [_] => by simp [pairLoop]
  | [a, b] => by simp [pairLoop]
  | [a, b, c] => by
    unfold pairLoop
    by_cases h : hasWordChar c <;> simp [h]
  | a :: b :: c :: d :: rest => by
    have ih := flatten_pairLoop (c :: d :: rest)
    unfold pairLoop
    simp only [List.flatten_cons]
    rw [ih]
    simp

/-- Claim C8: concatenating the display tokens produced by `to_list` after
quote normalization by `process_text` reproduces the normalized input text
exactly, and empty input yields an empty token sequence. -/
theorem C8_tokenizer_reconstruction (text : List Char) :
    (to_list (process_text text)).flatten = process_text text ∧
      to_list ([] : List Char) = [] := by
  refine ⟨?_, rfl⟩
  generalize process_text text = l
  have hsp := flatten_splitRuns l
  unfold to_list
  by_cases h1 : (splitRuns l).length = 1
  · rw [if_pos h1]
    exact hsp
  · rw [if_neg h1]
    by_cases h2 : 1 < (splitRuns l).length
    · rw [if_pos h2, flatten_pairLoop]
      exact hsp
    · rw [if_neg h2]
      have h0 : (splitRuns l).length = 0 := by omega
      rw [List.length_eq_zero] at h0
      rw [h0] at hsp
      simpa using hsp.symm

/-! ## Vocabulary interner -/

lemma firstOccIdx_cons (k : List Char) (ks : List (List Char)) (w : List Char) :
    firstOccIdx (k :: ks) w =
      if k = w then some 0 else (firstOccIdx ks w).map (· + 1) := rfl

lemma dictLookup_cons (k : List Char) (v : Nat) (d : List (List Char × Nat))
    (w : List Char) :
    dictLookup ((k, v) :: d) w = if k = w then some v else dictLookup d w := rfl

lemma firstOccIdx_isSome {keys : List (List Char)} {w : List Char} (h : w ∈ keys) :
    (firstOccIdx keys w).isSome = true := by
  induction keys with
  | nil => simp at h
  | cons k ks ih =>
    rw [firstOccIdx_cons]
    by_cases hkw : k = w
    · rw [if_pos hkw]
      rfl
    · rw [if_neg hkw]
      have hm : w ∈ ks := by
        rcases List.mem_cons.mp h with h' | h'
        · exact absurd h'.symm hkw
        · exact h'
      obtain ⟨m0, hm0⟩ := Option.isSome_iff_exists.mp (ih hm)
      rw [hm0]
      rfl

lemma firstOccIdx_spec {keys : List (List Char)} {w : List Char} {m : Nat}
    (h : firstOccIdx keys w = some m) :
    m < keys.length ∧ keys.getD m [] = w ∧ ∀ m', m' < m → keys.getD m' [] ≠ w := by
  induction keys generalizing m with
  | nil => simp [firstOccIdx] at h
  | cons k ks ih =>
    unfold firstOccIdx at h
    by_cases hkw : k = w
    · rw [if_pos hkw] at h
      injection h with h
      subst h
      exact ⟨Nat.succ_pos _, hkw, fun m' hm' => absurd hm' (Nat.not_lt_zero m')⟩
    · rw [if_neg hkw] at h
      cases ho : firstOccIdx ks w with
      | none => rw [ho] at h; simp at h
      | some m0 =>
        rw [ho] at h
        simp only [Option.map_some'] at h
        injection h with h
        obtain ⟨hs1, hs2, hs3⟩ := ih ho
        subst h
        refine ⟨by simpa using Nat.succ_lt_succ hs1, by simpa using hs2, ?_⟩
        intro m' hm'
        match m' with
        | 0 => simpa using hkw
        | m'' + 1 =>
          simp only [List.getD_cons_succ]
          exact hs3 m'' (by omega)

lemma firstOccIdx_mem {keys : List (List Char)} {w : List Char} {m : Nat}
    (h : firstOccIdx keys w = some m) : w ∈ keys := by
  obtain ⟨h1, h2, -⟩ := firstOccIdx_spec h
  rw [List.getD_eq_getElem _ _ h1] at h2
  exact h2 ▸ List.getElem_mem h1

lemma firstOccIdx_of_not_mem {keys : List (List Char)} {w : List Char}
    (h : w ∉ keys) : firstOccIdx keys w = none := by
  cases ho : firstOccIdx keys w with
  | none => rfl
  | some m => exact absurd (firstOccIdx_mem ho) h

lemma internAux_lookup : ∀ (ws : List (List Char)) (i : Nat)
    (d : List (List Char × Nat)) (w : List Char),
    dictLookup (internAux i ws d).2 w =
      match dictLookup d w with
      | some v => some v
      | none => (firstOccIdx ws w).map (· + i) := by
  intro ws
  induction ws with
  | nil =>
    intro i d w
    cases h : dictLookup d w <;> simp [internAux, firstOccIdx, h]
  | cons k ks ih =>
    intro i d w
    show dictLookup (internAux (i + 1) ks
        (if (dictLookup d k).isSome then d else (k, (dictLookup d k).getD i) :: d)).2 w = _
    rw [ih]
    cases hk : dictLookup d k with
    | some v0 =>
      simp only [Option.isSome_some, if_true]
      cases hw : dictLookup d w with
      | some v => rfl
      | none =>
        have hne : k ≠ w := fun he => by rw [he, hw] at hk; exact Option.noConfusion hk
        rw [firstOccIdx_cons, if_neg hne]
        cases firstOccIdx ks w <;> simp [Nat.add_assoc, Nat.add_comm 1 i]
    | none =>
      simp only [Option.isSome_none, Bool.false_eq_true, if_false, Option.getD_none]
      rw [dictLookup_cons]
      by_cases hkw : k = w
      · subst hkw
        rw [if_pos rfl, hk, firstOccIdx_cons, if_pos rfl]
        simp
      · rw [if_neg hkw]
        cases hw : dictLookup d w with
        | some v => rfl
        | none =>
          rw [firstOccIdx_cons, if_neg hkw]
          cases firstOccIdx ks w <;> simp [Nat.add_assoc, Nat.add_comm 1 i]

lemma internAux_fst : ∀ (ws : List (List Char)) (i : Nat) (d : List (List Char × Nat)),
    (internAux i ws d).1 = ws.map (fun w =>
      Int.ofNat (match dictLookup d w with
        | some v => v
        | none => i + (firstOccIdx ws w).getD 0)) := by
  intro ws
  induction ws with
  | nil => intro i d; rfl
  | cons k ks ih =>
    intro i d
    show Int.ofNat ((dictLookup d k).getD i) :: (internAux (i + 1) ks
        (if (dictLookup d k).isSome then d else (k, (dictLookup d k).getD i) :: d)).1 = _
    rw [ih]
    rw [List.map_cons]
    cases hk : dictLookup d k with
    | some v0 =>
      simp only [Option.isSome_some, if_true, Option.getD_some]
      congr 1
      apply List.map_congr_left
      intro w hw
      cases hw2 : dictLookup d w with
      | some v => rfl
      | none =>
        have hne : k ≠ w := fun he => by rw [he, hw2] at hk; exact Option.noConfusion hk
        congr 1
        rw [firstOccIdx_cons, if_neg hne]
        obtain ⟨m0, hm0⟩ := Option.isSome_iff_exists.mp (firstOccIdx_isSome hw)
        rw [hm0]
        simp only [Option.map_some', Option.getD_some]
        omega
    | none =>
      simp only [Option.isSome_none, Bool.false_eq_true, if_false, Option.getD_none]
      have hself : (firstOccIdx (k :: ks) k).getD 0 = 0 := by
        rw [firstOccIdx_cons, if_pos rfl]
        rfl
      rw [hself]
      congr 1
      apply List.map_congr_left
      intro w hw
      rw [dictLookup_cons]
      by_cases hkw : k = w
      · subst hkw
        rw [if_pos rfl, hk, firstOccIdx_cons, if_pos rfl]
        simp
      · rw [if_neg hkw]
        cases hw2 : dictLookup d w with
        | some v => rfl
        | none =>
          congr 1
          rw [firstOccIdx_cons, if_neg hkw]
          obtain ⟨m0, hm0⟩ := Option.isSome_iff_exists.mp (firstOccIdx_isSome hw)
          rw [hm0]
          simp only [Option.map_some', Option.getD_some]
          omega

lemma internReference_lookup (reference : List (List Char)) (w : List Char) :
    dictLookup (internReference reference).2 w =
      firstOccIdx (reference.map comparisonKey) w := by
  unfold internReference
  rw [internAux_lookup]
  show (firstOccIdx (reference.map comparisonKey) w).map (· + 0) = _
  cases firstOccIdx (reference.map comparisonKey) w <;> simp

lemma internReference_fst (reference : List (List Char)) :
    (internReference reference).1 = (reference.map comparisonKey).map
      (fun w => Int.ofNat ((firstOccIdx (reference.map comparisonKey) w).getD 0)) := by
  unfold internReference
  rw [internAux_fst]
  apply List.map_congr_left
  intro w _
  show Int.ofNat (0 + (firstOccIdx (reference.map comparisonKey) w).getD 0) = _
  rw [Nat.zero_add]

lemma internReference_length (reference : List (List Char)) :
    (internReference reference).1.length = reference.length := by
  rw [internReference_fst]
  simp

lemma internReference_getD (reference : List (List Char)) (idx : Nat)
    (h : idx < reference.length) :
    (internReference reference).1.getD idx 0 =
      Int.ofNat ((firstOccIdx (reference.map comparisonKey)
        ((reference.map comparisonKey).getD idx [])).getD 0) := by
  rw [internReference_fst]
  rw [List.getD_eq_getElem _ _ (by simpa using h), List.getElem_map]
  congr 2
  rw [List.getD_eq_getElem _ _ (by simpa using h)]

lemma getD_mem_of_lt {α : Type} (l : List α) (d : α) (i : Nat) (h : i < l.length) :
    l.getD i d ∈ l := by
  rw [List.getD_eq_getElem _ _ h]
  exact List.getElem_mem h

/-- Claim C7: the interner built by `match_verbatim` gives every reference
token the index of the first occurrence of its comparison key as its id:
the id at `idx` is `Int.ofNat m` for the least `m` holding the same key,
repeated keys reuse the same id, distinct keys receive distinct ids, and all
ids are non-negative. -/
theorem C7_interner_first_occurrence (reference : List (List Char)) (idx idx2 : Nat)
    (h1 : idx < reference.length) (h2 : idx2 < reference.length) :
    (∃ m, m ≤ idx ∧
        (internReference reference).1.getD idx 0 = Int.ofNat m ∧
        (reference.map comparisonKey).getD m [] =
          (reference.map comparisonKey).getD idx [] ∧
        ∀ m', m' < m → (reference.map comparisonKey).getD m' [] ≠
          (reference.map comparisonKey).getD idx []) ∧
    ((reference.map comparisonKey).getD idx2 [] =
        (reference.map comparisonKey).getD idx [] →
      (internReference reference).1.getD idx2 0 =
        (internReference reference).1.getD idx 0) ∧
    ((reference.map comparisonKey).getD idx2 [] ≠
        (reference.map comparisonKey).getD idx [] →
      (internReference reference).1.getD idx2 0 ≠
        (internReference reference).1.getD idx 0) ∧
    0 ≤ (internReference reference).1.getD idx 0 := by
  have hklen : (reference.map comparisonKey).length = reference.length := by simp
  have hmem : (reference.map comparisonKey).getD idx [] ∈ reference.map comparisonKey :=
    getD_mem_of_lt _ _ idx (by omega)
  have hmem2 : (reference.map comparisonKey).getD idx2 [] ∈ reference.map comparisonKey :=
    getD_mem_of_lt _ _ idx2 (by omega)
  obtain ⟨m, hm⟩ := Option.isSome_iff_exists.mp (firstOccIdx_isSome hmem)
  obtain ⟨m2, hm2⟩ := Option.isSome_iff_exists.mp (firstOccIdx_isSome hmem2)
  obtain ⟨hsa, hsb, hsc⟩ := firstOccIdx_spec hm
  obtain ⟨hta, htb, htc⟩ := firstOccIdx_spec hm2
  refine ⟨⟨m, ?_, ?_, hsb, hsc⟩, ?_, ?_, ?_⟩
  · by_contra hlt
    exact hsc idx (by omega) rfl
  · rw [internReference_getD reference idx h1, hm]
    rfl
  · intro he
    rw [internReference_getD reference idx2 h2, internReference_getD reference idx h1, he]
  · intro hne hcon
    rw [internReference_getD reference idx2 h2, internReference_getD reference idx h1,
      hm, hm2] at hcon
    simp only [Option.getD_some] at hcon
    have hmm : m2 = m := Int.ofNat.inj hcon
    subst hmm
    exact hne (htb.symm.trans hsb)
  · rw [internReference_getD reference idx h1]
    exact Int.ofNat_nonneg _

/-- Witness for C7 at a concrete input. -/
theorem C7_interner_first_occurrence_witness :
    (0 : Nat) < (["b ".data, "a ".data, "b".data] : List (List Char)).length ∧
    (2 : Nat) < (["b ".data, "a ".data, "b".data] : List (List Char)).length ∧
    ((∃ m, m ≤ 2 ∧
        (internReference ["b ".data, "a ".data, "b".data]).1.getD 2 0 = Int.ofNat m ∧
        ((["b ".data, "a ".data, "b".data] : List (List Char)).map comparisonKey).getD m [] =
          ((["b ".data, "a ".data, "b".data] : List (List Char)).map comparisonKey).getD 2 [] ∧
        ∀ m', m' < m →
          ((["b ".data, "a ".data, "b".data] : List (List Char)).map comparisonKey).getD m' [] ≠
          ((["b ".data, "a ".data, "b".data] : List (List Char)).map comparisonKey).getD 2 []) ∧
     (((["b ".data, "a ".data, "b".data] : List (List Char)).map comparisonKey).getD 0 [] =
         ((["b ".data, "a ".data, "b".data] : List (List Char)).map comparisonKey).getD 2 [] →
       (internReference ["b ".data, "a ".data, "b".data]).1.getD 0 0 =
         (internReference ["b ".data, "a ".data, "b".data]).1.getD 2 0) ∧
     (((["b ".data, "a ".data, "b".data] : List (List Char)).map comparisonKey).getD 0 [] ≠
         ((["b ".data, "a ".data, "b".data] : List (List Char)).map comparisonKey).getD 2 [] →
       (internReference ["b ".data, "a ".data, "b".data]).1.getD 0 0 ≠
         (internReference ["b ".data, "a ".data, "b".data]).1.getD 2 0) ∧
     0 ≤ (internReference ["b ".data, "a ".data, "b".data]).1.getD 2 0) :=
  ⟨by decide, by decide,
    C7_interner_first_occurrence ["b ".data, "a ".data, "b".data] 2 0 (by decide) (by decide)⟩

/-! ## OOV safety -/

lemma match_verbatim_ids_fst (reference sample : List (List Char)) :
    (match_verbatim_ids reference sample).1 = (internReference reference).1 := rfl

lemma match_verbatim_ids_snd_length (reference sample : List (List Char)) :
    (match_verbatim_ids reference sample).2.length = sample.length := by
  unfold match_verbatim_ids
  simp

lemma match_verbatim_ids_snd_getD (reference sample : List (List Char)) (p : Nat)
    (hp : p < sample.length) :
    (match_verbatim_ids reference sample).2.getD p 0 =
      match dictLookup (internReference reference).2
          (comparisonKey (sample.getD p [])) with
      | some n => Int.ofNat n
      | none => -1 := by
  unfold match_verbatim_ids
  dsimp only
  rw [List.getD_eq_getElem _ _ (by simpa using hp), List.getElem_map, List.getElem_map]
  rw [List.getD_eq_getElem _ _ hp]

lemma match_verbatim_ids_fst_not_neg (reference sample : List (List Char)) :
    ∀ x ∈ (match_verbatim_ids reference sample).1, x ≠ -1 := by
  rw [match_verbatim_ids_fst, internReference_fst]
  intro x hx
  rw [List.mem_map] at hx
  obtain ⟨w, -, hw⟩ := hx
  have hge : 0 ≤ x := by
    rw [← hw]
    exact Int.ofNat_nonneg _
  omega

/-- Claim C4: a sample token whose comparison key never occurs among the
reference's comparison keys is assigned the sentinel id `-1`, which equals
no reference id, and its position is false in the sample mask returned by
`match_verbatim`. -/
theorem C4_oov_safety (reference sample : List (List Char)) (frame_size p : Nat)
    (hk : 1 ≤ frame_size) (hp : p < sample.length)
    (hoov : comparisonKey (sample.getD p []) ∉ reference.map comparisonKey) :
    (match_verbatim_ids reference sample).2.getD p 0 = -1 ∧
    (∀ x ∈ (match_verbatim_ids reference sample).1, x ≠ -1) ∧
    (match_verbatim reference sample frame_size).2.getD p false = false := by
  have hsent : (match_verbatim_ids reference sample).2.getD p 0 = -1 := by
    rw [match_verbatim_ids_snd_getD reference sample p hp, internReference_lookup,
      firstOccIdx_of_not_mem hoov]
  refine ⟨hsent, match_verbatim_ids_fst_not_neg reference sample, ?_⟩
  by_contra hmask
  rw [Bool.not_eq_false] at hmask
  unfold match_verbatim at hmask
  rw [search_arrays_snd_getD] at hmask
  obtain ⟨i, j, h1, h2, h3, h4, heq⟩ := hmask
  have hcg := congrArg (fun l => l.getD (p - i) 0) heq
  dsimp only at hcg
  rw [getD_window _ _ _ _ _ (by omega), getD_window _ _ _ _ _ (by omega)] at hcg
  have hip : i + (p - i) = p := by omega
  rw [hip] at hcg
  have hjlen : j + (p - i) < (match_verbatim_ids reference sample).1.length := by omega
  have hmem : (match_verbatim_ids reference sample).1.getD (j + (p - i)) 0 ∈
      (match_verbatim_ids reference sample).1 := getD_mem_of_lt _ _ _ hjlen
  have := match_verbatim_ids_fst_not_neg reference sample _ hmem
  rw [← hcg, hsent] at this
  exact this rfl

/-- Witness for C4 at a concrete input. -/
theorem C4_oov_safety_witness :
    1 ≤ 1 ∧ (0 : Nat) < (["b".data] : List (List Char)).length ∧
    comparisonKey ((["b".data] : List (List Char)).getD 0 []) ∉
      (["a".data] : List (List Char)).map comparisonKey ∧
    ((match_verbatim_ids ["a".data] ["b".data]).2.getD 0 0 = -1 ∧
     (∀ x ∈ (match_verbatim_ids ["a".data] ["b".data]).1, x ≠ -1) ∧
     (match_verbatim ["a".data] ["b".data] 1).2.getD 0 false = false) :=
  ⟨by decide, by decide, by decide,
    C4_oov_safety ["a".data] ["b".data] 1 0 (by decide) (by decide) (by decide)⟩

/-! ## Highlighter boundaries -/

lemma getD_append_false (mask : List Bool) (j : Nat) :
    (mask ++ [false]).getD j false = mask.getD j false := by
  induction mask generalizing j with
  | nil =>
    match j with
    | 0 => rfl
    | j + 1 => rfl
  | cons b t ih =>
    match j with
    | 0 => rfl
    | j + 1 =>
      simp only [List.cons_append, List.getD_cons_succ]
      exact ih j

lemma paddedMask_getD (mask : List Bool) (i : Nat) :
    (paddedMask mask).getD i false = if i = 0 then false else mask.getD (i - 1) false := by
  match i with
  | 0 => rfl
  | j + 1 =>
    rw [if_neg (Nat.succ_ne_zero j)]
    show (mask ++ [false]).getD j false = mask.getD (j + 1 - 1) false
    rw [getD_append_false, Nat.add_sub_cancel]

lemma mem_highlight_starts (mask : List Bool) (idx : Nat) :
    idx ∈ highlight_starts mask ↔
      mask.getD idx false = true ∧ (idx = 0 ∨ mask.getD (idx - 1) false = false) := by
  unfold highlight_starts
  rw [List.mem_filter, List.mem_range]
  rw [Bool.and_eq_true, Bool.not_eq_true']
  rw [paddedMask_getD, paddedMask_getD]
  rw [if_neg (Nat.succ_ne_zero idx), Nat.add_sub_cancel]
  constructor
  · rintro ⟨hlt, hpred, hcur⟩
    refine ⟨hcur, ?_⟩
    by_cases h0 : idx = 0
    · exact Or.inl h0
    · rw [if_neg h0] at hpred
      exact Or.inr hpred
  · rintro ⟨hcur, hpred⟩
    refine ⟨by have := getD_true_lt mask idx hcur; omega, ?_, hcur⟩
    by_cases h0 : idx = 0
    · rw [if_pos h0]
    · rw [if_neg h0]
      rcases hpred with h0' | hpv
      · exact absurd h0' h0
      · exact hpv

lemma mem_highlight_stops (mask : List Bool) (idx : Nat) :
    idx ∈ highlight_stops mask ↔
      mask.getD idx false = true ∧ mask.getD (idx + 1) false = false := by
  unfold highlight_stops
  rw [List.mem_map]
  constructor
  · rintro ⟨j, hj, hj1⟩
    rw [List.mem_filter, List.mem_range] at hj
    obtain ⟨hjlt, hcond⟩ := hj
    rw [Bool.and_eq_true, Bool.not_eq_true'] at hcond
    obtain ⟨hc1, hc2⟩ := hcond
    rw [paddedMask_getD] at hc1 hc2
    by_cases h0 : j = 0
    · rw [if_pos h0] at hc1
      exact absurd hc1 (by simp)
    · rw [if_neg h0] at hc1
      rw [if_neg (Nat.succ_ne_zero j), Nat.add_sub_cancel] at hc2
      have hj' : j = idx + 1 := by omega
      subst hj'
      rw [Nat.add_sub_cancel] at hc1
      exact ⟨hc1, hc2⟩
  · rintro ⟨hcur, hnext⟩
    refine ⟨idx + 1, ?_, by rw [Nat.add_sub_cancel]⟩
    rw [List.mem_filter, List.mem_range]
    refine ⟨by have := getD_true_lt mask idx hcur; omega, ?_⟩
    rw [Bool.and_eq_true, Bool.not_eq_true']
    rw [paddedMask_getD, paddedMask_getD]
    rw [if_neg (Nat.succ_ne_zero idx), Nat.add_sub_cancel]
    rw [if_neg (Nat.succ_ne_zero (idx + 1)), Nat.add_sub_cancel]
    exact ⟨hcur, hnext⟩

/-- Claim C9: `highlight_text` prepends the color start code exactly at each
run start (a true mask position whose predecessor is false or absent),
appends the stop code exactly at each run stop (a true position whose
successor is false or absent), leaves every other token unchanged, and
preserves the token count. -/
theorem C9_highlight_boundary (mask : List Bool) (text : List (List Char))
    (color : List Char) (idx : Nat) (hlen : mask.length = text.length)
    (hidx : idx < text.length) :
    (highlight_text mask text color).length = text.length ∧
    (highlight_text mask text color).getD idx [] =
      (let t0 := text.getD idx []
       let t1 :=
         if mask.getD idx false = true ∧ (idx = 0 ∨ mask.getD (idx - 1) false = false)
         then (get_color color).1 ++ t0 else t0
       if mask.getD idx false = true ∧ mask.getD (idx + 1) false = false
       then t1 ++ (get_color color).2 else t1) := by
  constructor
  · unfold highlight_text
    simp
  · unfold highlight_text
    dsimp only
    rw [getD_map_range, if_pos hidx]
    by_cases hs : mask.getD idx false = true ∧ (idx = 0 ∨ mask.getD (idx - 1) false = false)
    · rw [if_pos ((mem_highlight_starts mask idx).mpr hs), if_pos hs]
      by_cases ht : mask.getD idx false = true ∧ mask.getD (idx + 1) false = false
      · rw [if_pos ((mem_highlight_stops mask idx).mpr ht), if_pos ht]
      · rw [if_neg (fun hc => ht ((mem_highlight_stops mask idx).mp hc)), if_neg ht]
    · rw [if_neg (fun hc => hs ((mem_highlight_starts mask idx).mp hc)), if_neg hs]
      by_cases ht : mask.getD idx false = true ∧ mask.getD (idx + 1) false = false
      · rw [if_pos ((mem_highlight_stops mask idx).mpr ht), if_pos ht]
      · rw [if_neg (fun hc => ht ((mem_highlight_stops mask idx).mp hc)), if_neg ht]

/-- Witness for C9 at a concrete input. -/
theorem C9_highlight_boundary_witness :
    ([true] : List Bool).length = ([['x']] : List (List Char)).length ∧
    (0 : Nat) < ([['x']] : List (List Char)).length ∧
    ((highlight_text [true] [['x']] "red".data).length =
        ([['x']] : List (List Char)).length ∧
     (highlight_text [true] [['x']] "red".data).getD 0 [] =
       (let t0 := ([['x']] : List (List Char)).getD 0 []
        let t1 :=
          if ([true] : List Bool).getD 0 false = true ∧
              ((0 : Nat) = 0 ∨ ([true] : List Bool).getD (0 - 1) false = false)
          then (get_color "red".data).1 ++ t0 else t0
        if ([true] : List Bool).getD 0 false = true ∧
            ([true] : List Bool).getD (0 + 1) false = false
        then t1 ++ (get_color "red".data).2 else t1)) :=
  ⟨by decide, by decide,
    C9_highlight_boundary [true] [['x']] ("red".data) 0 (by decide) (by decide)⟩

/-! ## Absence of a result in format_text -/

lemma getD_map_comparisonKey (l : List (List Char)) (x : Nat) (hx : x < l.length) :
    (l.map comparisonKey).getD x [] = comparisonKey (l.getD x []) := by
  rw [List.getD_eq_getElem _ _ (by simpa using hx), List.getElem_map,
    List.getD_eq_getElem _ _ hx]

lemma ids_getD_eq_iff (reference sample : List (List Char)) (x y : Nat)
    (hx : x < sample.length) (hy : y < reference.length) :
    ((match_verbatim_ids reference sample).2.getD x 0 =
      (match_verbatim_ids reference sample).1.getD y 0) ↔
    (comparisonKey (sample.getD x []) = (reference.map comparisonKey).getD y []) := by
  have hky : (reference.map comparisonKey).getD y [] ∈ reference.map comparisonKey :=
    getD_mem_of_lt _ _ y (by simpa using hy)
  obtain ⟨m, hm⟩ := Option.isSome_iff_exists.mp (firstOccIdx_isSome hky)
  obtain ⟨hma, hmb, -⟩ := firstOccIdx_spec hm
  have hfst : (match_verbatim_ids reference sample).1.getD y 0 = Int.ofNat m := by
    rw [match_verbatim_ids_fst, internReference_getD reference y hy, hm]
    rfl
  rw [match_verbatim_ids_snd_getD reference sample x hx, internReference_lookup, hfst]
  cases hl : firstOccIdx (reference.map comparisonKey)
      (comparisonKey (sample.getD x [])) with
  | none =>
    show (-1 : Int) = Int.ofNat m ↔ _
    constructor
    · intro hcon
      have h0 : (0 : Int) ≤ Int.ofNat m := Int.ofNat_nonneg m
      rw [← hcon] at h0
      norm_num at h0
    · intro hkey
      rw [hkey, hm] at hl
      exact Option.noConfusion hl
  | some n =>
    obtain ⟨hna, hnb, -⟩ := firstOccIdx_spec hl
    show Int.ofNat n = Int.ofNat m ↔ _
    constructor
    · intro heq
      have hnm : n = m := Int.ofNat.inj heq
      subst hnm
      rw [← hnb]
      exact hmb
    · intro hkey
      rw [hkey, hm] at hl
      injection hl with hl
      rw [hl]

lemma ids_window_iff (reference sample : List (List Char)) (i j k : Nat)
    (hi : i + k ≤ sample.length) (hj : j + k ≤ reference.length) :
    (((match_verbatim_ids reference sample).2.drop i).take k =
      ((match_verbatim_ids reference sample).1.drop j).take k) ↔
    (((sample.map comparisonKey).drop i).take k =
      ((reference.map comparisonKey).drop j).take k) := by
  have hl2 := match_verbatim_ids_snd_length reference sample
  have hl1 : (match_verbatim_ids reference sample).1.length = reference.length := by
    rw [match_verbatim_ids_fst]
    exact internReference_length reference
  rw [window_eq_iff _ _ (0 : Int) i j k (by omega) (by omega),
    window_eq_iff _ _ ([] : List Char) i j k (by simpa using hi) (by simpa using hj)]
  constructor
  · intro h t ht
    have h1 := h t ht
    rw [ids_getD_eq_iff reference sample (i + t) (j + t) (by omega) (by omega)] at h1
    rw [getD_map_comparisonKey sample (i + t) (by omega)]
    exact h1
  · intro h t ht
    have h1 := h t ht
    rw [getD_map_comparisonKey sample (i + t) (by omega)] at h1
    rw [ids_getD_eq_iff reference sample (i + t) (j + t) (by omega) (by omega)]
    exact h1

lemma search_arrays_fst_any (a b : List Int) (k : Nat) (hk : 1 ≤ k) :
    ((search_arrays a b k).1.any id = true) ↔
      ∃ i j, i + k ≤ b.length ∧ j + k ≤ a.length ∧
        (b.drop i).take k = (a.drop j).take k := by
  constructor
  · intro h
    rw [List.any_eq_true] at h
    obtain ⟨x, hxmem, hid⟩ := h
    rw [List.mem_iff_getElem] at hxmem
    obtain ⟨p, hp, hpx⟩ := hxmem
    have hgd : (search_arrays a b k).1.getD p false = true := by
      rw [List.getD_eq_getElem _ _ hp, hpx]
      exact hid
    rw [search_arrays_fst_getD] at hgd
    obtain ⟨i, j, -, -, h3, h4, heq⟩ := hgd
    exact ⟨i, j, h3, h4, heq⟩
  · rintro ⟨i, j, h3, h4, heq⟩
    have hj : (search_arrays a b k).1.getD j false = true := by
      rw [search_arrays_fst_getD]
      exact ⟨i, j, Nat.le_refl j, by omega, h3, h4, heq⟩
    have hjlt := getD_true_lt _ _ hj
    rw [List.any_eq_true]
    refine ⟨true, ?_, rfl⟩
    rw [List.mem_iff_getElem]
    refine ⟨j, hjlt, ?_⟩
    rw [← List.getD_eq_getElem _ false hjlt]
    exact hj

lemma match_verbatim_fst_any_iff (reference sample : List (List Char)) (k : Nat)
    (hk : 1 ≤ k) :
    ((match_verbatim reference sample k).1.any id = true) ↔
      existsCommonFrame reference sample k := by
  unfold match_verbatim existsCommonFrame
  dsimp only
  rw [search_arrays_fst_any _ _ _ hk]
  have hl2 := match_verbatim_ids_snd_length reference sample
  have hl1 : (match_verbatim_ids reference sample).1.length = reference.length := by
    rw [match_verbatim_ids_fst]
    exact internReference_length reference
  constructor
  · rintro ⟨i, j, h3, h4, heq⟩
    refine ⟨i, j, by omega, by omega, ?_⟩
    rw [← ids_window_iff reference sample i j k (by omega) (by omega)]
    exact heq
  · rintro ⟨i, j, h3, h4, heq⟩
    refine ⟨i, j, by omega, by omega, ?_⟩
    rw [ids_window_iff reference sample i j k (by omega) (by omega)]
    exact heq

lemma layer_masks_replicate (m : List Bool) :
    ∃ u v, layer_masks m (List.replicate m.length false) = (some u, some v) := by
  unfold layer_masks np_logical_and np_logical_not
  rw [if_pos (show m.length = ((List.replicate m.length false).map (fun x => !x)).length by
      simp),
    if_pos (show m.length = (List.replicate m.length false).length by simp)]
  exact ⟨_, _, rfl⟩

/-- With quote detection off, `format_text` returns the absent result
exactly when no matching run of length `frame` exists between the
comparison-key sequences of the two token lists; when a match exists it
returns a pair of annotated strings.  With quote detection on this second
part can fail (see the broadcast evaluation below): the quote mask of an
even-quote sample need not have the sample's token count, and
`np.logical_and` then raises instead of producing annotated output. -/
theorem format_text_absent_iff (r_in s_in : List Char) (frame : Nat)
    (c1 c2 c3 : List Char) (hk : 1 ≤ frame) :
    ((format_text r_in s_in frame false c1 c2 c3 = FormatResult.absent) ↔
      ¬ existsCommonFrame (to_list (process_text r_in))
          (to_list (process_text s_in)) frame) ∧
    (existsCommonFrame (to_list (process_text r_in))
        (to_list (process_text s_in)) frame →
      ∃ aOut bOut, format_text r_in s_in frame false c1 c2 c3 =
        FormatResult.ok aOut bOut) := by
  unfold format_text
  dsimp only
  by_cases hc : (match_verbatim (to_list (process_text r_in))
      (to_list (process_text s_in)) frame).1.any id = true
  · have hcomm := (match_verbatim_fst_any_iff _ _ frame hk).mp hc
    obtain ⟨u, v, hlay⟩ := layer_masks_replicate
      ((match_verbatim (to_list (process_text r_in))
        (to_list (process_text s_in)) frame).2)
    rw [hc]
    simp only [Bool.and_self, if_true, Bool.false_eq_true, if_false]
    rw [hlay]
    dsimp only
    constructor
    · constructor
      · intro habs
        exact FormatResult.noConfusion habs
      · intro hno
        exact (hno hcomm).elim
    · intro _
      exact ⟨_, _, rfl⟩
  · rw [Bool.not_eq_true] at hc
    rw [hc]
    simp only [Bool.and_self, Bool.false_eq_true, if_false]
    constructor
    · constructor
      · intro _ hcomm
        have := (match_verbatim_fst_any_iff _ _ frame hk).mpr hcomm
        rw [hc] at this
        exact Bool.noConfusion this
      · intro _
        trivial
    · intro hcomm
      have := (match_verbatim_fst_any_iff _ _ frame hk).mpr hcomm
      rw [hc] at this
      exact Bool.noConfusion this

/-- Claim C2: evaluation of `format_text` with quote detection on at
reference `b c`, sample `a-"b c"-d`, frame size 2.  A matching run of
length 2 exists (keys `b`, `c`), so the claim requires a pair of annotated
strings, but the sample's quote mask has length 2 while its match mask has
length 4, and the NumPy conjunction of the two raises the broadcast
`ValueError` recorded at copycheck.py line 285 (modelled as
`FormatResult.broadcastError`) instead of returning output. -/
theorem C2_format_broadcast_bug :
    existsCommonFrame (to_list (process_text "b c".data))
      (to_list (process_text "a-\"b c\"-d".data)) 2 ∧
    format_text "b c".data "a-\"b c\"-d".data 2 true
      "red".data "green".data "cyan".data = FormatResult.broadcastError :=
  ⟨⟨1, 0, by decide⟩, by decide⟩

/-! ## Concrete evaluations -/

/-- Claim C1: evaluation of the quote detector at the sample `a-"b c"-d`
(an even quote count, so the substitution branch runs).  The sample
tokenizes to 4 display tokens, but `match_quotes` returns a mask of
length 2: the quotation substitution collapses the dash-separated fragments
around the quotes, so the mask length does not equal the token count. -/
theorem C1_quote_mask_length :
    ("a-\"b c\"-d".data).count '"' % 2 = 0 ∧
    (to_list ("a-\"b c\"-d".data)).length = 4 ∧
    (match_quotes ("a-\"b c\"-d".data)).length = 2 := by
  refine ⟨by decide, by decide, by decide⟩

/-- Claim C10: tokens made only of stripped characters (here `!` and `?…`)
normalize to the same empty comparison key; when the reference holds such a
token, a sample punctuation token with entirely different raw characters
resolves to the in-vocabulary id of the empty key rather than the sentinel
`-1`, and participates in (and extends) a matching run: with frame size 3
the whole sample is marked, which requires the punctuation token to match. -/
theorem C10_punctuation_empty_key :
    comparisonKey ("!".data) = [] ∧
    comparisonKey ("?…".data) = [] ∧
    "!".data ≠ "?…".data ∧
    (match_verbatim_ids (to_list "x ! y".data) (to_list "x ?… y".data)).2 =
      [Int.ofNat 0, Int.ofNat 1, Int.ofNat 2] ∧
    (match_verbatim (to_list "x ! y".data) (to_list "x ?… y".data) 3).2 =
      [true, true, true] := by
  refine ⟨by decide, by decide, by decide, by decide, by decide⟩

end Copycheck
